import Mathlib

/-!
Verification of the streaming-relay and analytics-aggregation core of the
Cincinnati Museum Center chatbot backend.

The development shallowly embeds two request handlers:

* `src/backend/lambda/invoke-kb-stream/main.py` — the streaming chat relay
  (`stream_kb_response`, `format_citation`, `s3_uri_to_public_url`, `chat`).
  The external Bedrock backend is modelled as a function from call index to
  a call outcome; exceptions are represented by their message strings and
  classified by the same substring tests the source performs.  Real time is
  not modelled: backoff sleeps are recorded as trace actions carrying the
  duration the source would sleep.

* `src/backend/lambda/admin-api/index.py` — the dashboard statistics engine
  (`get_cached_result`, `set_cached_result`, `parallel_query_stats`,
  `get_stats`, `submit_feedback`).  The DynamoDB per-day query is modelled
  as a function from day ordinal to the aggregated day statistics, with a
  separate predicate saying on which days the query raises.  The thread
  pool joins all workers and merges with commutative sums, so the fan-out
  is modelled as an in-order fold; calendar dates are modelled by a
  year/month/day structure with a proleptic-Gregorian day ordinal that
  mirrors Python `datetime` comparison and `timedelta` stepping.
-/

namespace CMC

/-! ## Character-list string helpers

Python string operations used by the handlers (`in`, `startswith`) are
modelled on `List Char` via `String.data`, which mirrors Python exact
substring and prefix semantics. -/

/-- Substring test, modelling the Python `in` operator on strings. -/
def strContains (needle : List Char) : List Char → Bool
  | [] => needle.isEmpty
  | c :: rest => needle.isPrefixOf (c :: rest) || strContains needle rest

/-! ## Citation filtering (`s3_uri_to_public_url`, `format_citation`) -/

/-- Matching of `(.+)$` against the text after the first slash of an S3 uri:
`.` does not match a newline, and `$` matches at the end of the string or
just before one trailing newline. -/
def matchKeyPart (kp : List Char) : Option (List Char) :=
  let core := kp.takeWhile (fun c => c ≠ '\n')
  let rest := kp.dropWhile (fun c => c ≠ '\n')
  if core.isEmpty then none
  else if rest.isEmpty || rest = ['\n'] then some core
  else none

/-- Split a character list at its first slash. -/
def splitFirstSlash : List Char → Option (List Char × List Char)
  | [] => none
  | c :: rest =>
    if c = '/' then some ([], rest)
    else
      match splitFirstSlash rest with
      | some (b, k) => some (c :: b, k)
      | none => none

/-- Model of the source regex match against an S3 uri: the anchored
pattern requires the scheme, a nonempty slash-free bucket, a slash, and a
nonempty key matched by the dot-plus-dollar tail. -/
def matchS3Uri (uri : List Char) : Option (List Char × List Char) :=
  match uri with
  | 's' :: '3' :: ':' :: '/' :: '/' :: rest =>
    match splitFirstSlash rest with
    | none => none
    | some (b, kp) =>
      if b.isEmpty then none
      else
        match matchKeyPart kp with
        | some key => some (b, key)
        | none => none
  | _ => none

/-- The public HTTPS url composed from bucket, region and key. -/
def publicUrl (region : String) (bucket key : List Char) : String :=
  String.mk ("https://".data ++ bucket ++ ".s3.".data ++ region.data
    ++ ".amazonaws.com/".data ++ key)

/-- Model of `s3_uri_to_public_url` from `invoke-kb-stream/main.py`: the
empty-or-no-public-substring precheck, then the regex match, then the
`public/` prefix check on the key, then the url composition. -/
def s3_uri_to_public_url (region : String) (uri : String) : Option String :=
  if uri = "" || !strContains "/public/".data uri.data then none
  else
    match matchS3Uri uri.data with
    | none => none
    | some (bucket, key) =>
      if "public/".data.isPrefixOf key then some (publicUrl region bucket key)
      else none

/-- One retrieved reference of a citation, holding the values the source
extracts from the nested response dict (absent dict entries are the empty
string, as produced by the chained `.get` defaults). -/
structure RetrievedRef where
  locationType : String
  s3Uri : String
  webUrl : String
  contentText : Option String
  metadata : String
deriving DecidableEq

/-- A formatted reference as built by `format_citation`. -/
structure FormattedRef where
  locationType : String
  url : String
  contentText : Option String
  metadata : String
deriving DecidableEq

/-- A citation stream event payload. -/
structure CitationIn where
  retrievedReferences : List RetrievedRef
deriving DecidableEq

/-- The formatted citation returned by `format_citation`. -/
structure CitationOut where
  retrievedReferences : List FormattedRef
deriving DecidableEq

/-- The reference loop of `format_citation`: S3 references are kept when
`s3_uri_to_public_url` succeeds, WEB references when their url is
nonempty, everything else is dropped. -/
def format_citation_loop (region : String) : List RetrievedRef → List FormattedRef
  | [] => []
  | ref :: rest =>
    (if ref.locationType = "S3" then
      match s3_uri_to_public_url region ref.s3Uri with
      | some url => [⟨"S3", url, ref.contentText, ref.metadata⟩]
      | none => []
    else if ref.locationType = "WEB" then
      if ref.webUrl ≠ "" then [⟨"WEB", ref.webUrl, ref.contentText, ref.metadata⟩]
      else []
    else []) ++ format_citation_loop region rest

/-- Model of `format_citation` from `invoke-kb-stream/main.py`. -/
def format_citation (region : String) (c : CitationIn) : CitationOut :=
  ⟨format_citation_loop region c.retrievedReferences⟩

/-- Specification-side keep rule, following the words of the claim: a
reference is kept iff it is WEB with a nonempty url (kept unchanged) or S3
with a well-formed `s3://bucket/key` uri (well-formedness being what the
source regex accepts) whose key starts with `public/` (rewritten to the
public HTTPS form); everything else is dropped. -/
def citationKeepSpec (region : String) (ref : RetrievedRef) : Option FormattedRef :=
  if ref.locationType = "WEB" ∧ ref.webUrl ≠ "" then
    some ⟨"WEB", ref.webUrl, ref.contentText, ref.metadata⟩
  else if ref.locationType = "S3" then
    match matchS3Uri ref.s3Uri.data with
    | some (bucket, key) =>
      if "public/".data.isPrefixOf key then
        some ⟨"S3", publicUrl region bucket key, ref.contentText, ref.metadata⟩
      else none
    | none => none
  else none

/-! ## Streaming relay (`stream_kb_response`)

The Bedrock call is modelled by a behaviour `beh : Nat → CallResult`
giving the outcome of the n-th `retrieve_and_generate_stream` call.  Each
loop iteration of the source performs exactly one call, so the call index
equals the loop variable `attempt`.  Failures are the exception message
strings; the source classifies them by substring tests which are modelled
verbatim. -/

/-- One element of the successful response stream.  The source inspects
the keys `output`, `citation` and `guardrail` independently on each
element, so all three are optional fields of one element. -/
structure StreamElem where
  output : Option String
  citation : Option CitationIn
  guardrail : Option (Option String)
deriving DecidableEq

/-- A successful response: the optional session id of the response and
the stream of elements. -/
structure StreamResponse where
  sessionId : Option String
  stream : List StreamElem
deriving DecidableEq

/-- Outcome of one backend call: an exception with its message, or a
successful streaming response. -/
inductive CallResult where
  | err (msg : String)
  | success (resp : StreamResponse)
deriving DecidableEq

/-- The throttling test of the source:
`"ThrottlingException" in error_msg or "rate is too high" in error_msg`. -/
def isThrottling (msg : String) : Bool :=
  strContains "ThrottlingException".data msg.data
    || strContains "rate is too high".data msg.data

/-- The invalid-session test of the source:
`"Session with Id" in error_msg and "is not valid" in error_msg`. -/
def isSessionInvalid (msg : String) : Bool :=
  strContains "Session with Id".data msg.data
    && strContains "is not valid".data msg.data

/-- A server-sent event as emitted to the caller, carrying the payload
parts the claims are about. -/
inductive Event where
  | conversationId
  | sessionExpired
  | sessionId (s : String)
  | text (t : String)
  | citations (cs : List CitationOut)
  | guardrail (action : String)
  | done
  | error (msg : String)
deriving DecidableEq

/-- One observable backend-side action of the relay: issuing a call with
the session token it carries, or sleeping for a backoff duration.
Durations are in milliseconds so that they stay in `Nat`: the source
sleeps `0.5 * 2 ** attempt` seconds, modelled as `500 * 2 ^ attempt`. -/
inductive Action where
  | call (tok : Option String)
  | sleep (ms : Nat)
deriving DecidableEq

/-- `max_retries` of the source. -/
def maxRetries : Nat := 3

/-- `backoff_base` of the source (0.5 seconds), in milliseconds. -/
def backoffBaseMs : Nat := 500

/-- The final outcome of the retry loop: a streaming response, a raised
exception message (re-raised to the outer handler), or `response is None`
after the loop, which the source turns into the fixed RuntimeError. -/
inductive LoopResult where
  | ok (resp : StreamResponse)
  | fatalErr (msg : String)
  | exhausted
deriving DecidableEq

/-- Accumulated observations of the retry loop. -/
structure LoopOut where
  events : List Event
  trace : List Action
  result : LoopResult
deriving DecidableEq

/-- The message of the RuntimeError raised when the loop leaves
`response` as `None`. -/
def failedMsg : String := "Failed to get response from Bedrock after retries."

/-- The prefix of the inline throttling error event payload. -/
def throttleMsgPre : String := "Bedrock API throttling: "

/-- The retry loop of `stream_kb_response`: `remaining` is the number of
loop iterations left (initially `maxRetries`), `attempt` the current loop
variable.  A throttling error sleeps `backoff_base * 2 ^ attempt` and
retries unless this was the last attempt, in which case an inline error
event is emitted and the loop breaks with `response = None`; an
invalid-session error drops the session token from the request, emits a
`sessionExpired` event and retries immediately; any other error is
re-raised. -/
def attemptLoop (beh : Nat → CallResult) : Nat → Nat → Option String → LoopOut
  | 0, _, _ => ⟨[], [], .exhausted⟩
  | remaining + 1, attempt, tok =>
    match beh attempt with
    | .success resp => ⟨[], [.call tok], .ok resp⟩
    | .err msg =>
      if isThrottling msg then
        if attempt < maxRetries - 1 then
          let rest := attemptLoop beh remaining (attempt + 1) tok
          ⟨rest.events, .call tok :: .sleep (backoffBaseMs * 2 ^ attempt) :: rest.trace,
            rest.result⟩
        else
          ⟨[.error (throttleMsgPre ++ msg)], [.call tok], .exhausted⟩
      else if isSessionInvalid msg then
        let rest := attemptLoop beh remaining (attempt + 1) none
        ⟨.sessionExpired :: rest.events, .call tok :: rest.trace, rest.result⟩
      else
        ⟨[], [.call tok], .fatalErr msg⟩

/-- State accumulated while consuming the stream: the text events emitted
on the fly, the accumulated answer, the formatted citations and the
latest guardrail-key value seen (`some` of the action entry of that
element, which itself may be absent). -/
structure StreamAcc where
  events : List Event
  fullText : String
  citations : List CitationOut
  guardSeen : Option (Option String)
deriving DecidableEq

/-- Consuming the stream elements in order: text chunks are re-emitted
immediately, citations are formatted and buffered, the guardrail action
of the latest guardrail element wins. -/
def processStream (region : String) : List StreamElem → StreamAcc
  | [] => ⟨[], "", [], none⟩
  | el :: rest =>
    let r := processStream region rest
    { events := (match el.output with
        | some t => [Event.text t]
        | none => []) ++ r.events
      fullText := (match el.output with
        | some t => t
        | none => "") ++ r.fullText
      citations := (match el.citation with
        | some c => [format_citation region c]
        | none => []) ++ r.citations
      guardSeen := r.guardSeen <|> el.guardrail }

/-- Truthiness of an optional string, as Python sees it. -/
def optTruthy : Option String → Bool
  | some s => s ≠ ""
  | none => false

/-- The events emitted after a successful response: the session id once
if truthy, the text chunks in stream order, the batched citations if any
were collected, the guardrail action if truthy, then `done`.  The
DynamoDB save happens between guardrail and done and emits nothing (its
own failures are swallowed inside `save_conversation_to_dynamodb`). -/
def successTail (region : String) (resp : StreamResponse) : List Event :=
  let acc := processStream region resp.stream
  let guardAction : Option String :=
    match acc.guardSeen with
    | some a => a
    | none => none
  (if optTruthy resp.sessionId then [Event.sessionId (resp.sessionId.getD "")] else [])
    ++ acc.events
    ++ (if acc.citations.isEmpty then [] else [Event.citations acc.citations])
    ++ (if optTruthy guardAction then [Event.guardrail (guardAction.getD "")] else [])
    ++ [Event.done]

/-- The observable outcome of one `stream_kb_response` invocation. -/
structure RunOut where
  events : List Event
  trace : List Action
deriving DecidableEq

/-- The session token actually sent: the caller-supplied id is used only
when truthy and not of the custom `session-` prefixed form. -/
def useSessionId (sessionId : Option String) : Option String :=
  match sessionId with
  | some s => if s ≠ "" && !("session-".data.isPrefixOf s.data) then some s else none
  | none => none

/-- The events emitted after the retry loop, by loop outcome: a success
streams the response and finishes with `done`; a re-raised exception or
the RuntimeError for `response is None` is caught by the outer handler,
which emits a final error event carrying the exception message. -/
def contEvents (region : String) : LoopResult → List Event
  | .ok resp => successTail region resp
  | .fatalErr msg => [Event.error msg]
  | .exhausted => [Event.error failedMsg]

/-- Model of `stream_kb_response`: the conversation id event is emitted
first, before any backend call; then the retry loop runs and the events
of its outcome follow. -/
def stream_kb_response (region : String) (beh : Nat → CallResult)
    (sessionId : Option String) : RunOut :=
  let lp := attemptLoop beh maxRetries 0 (useSessionId sessionId)
  { events := Event.conversationId :: (lp.events ++ contEvents region lp.result)
    trace := lp.trace }

/-- The session tokens of the calls issued, in order. -/
def callsOf (tr : List Action) : List (Option String) :=
  tr.filterMap fun a =>
    match a with
    | .call tok => some tok
    | .sleep _ => none

/-- The sleep durations performed (in milliseconds), in order. -/
def sleepsOf (tr : List Action) : List Nat :=
  tr.filterMap fun a =>
    match a with
    | .call _ => none
    | .sleep ms => some ms

/-! ### Event-order checkers

`eventsOk` checks the shape
`conversationId, sessionExpired*, sessionId?, text*, citations?,
guardrail?, terminal` where the terminal alternatives are supplied as a
parameter: `termStrict` is the terminal of the claim (exactly one `done`
or `error`), `termLoose` additionally allows the double error the source
emits when throttling persists through the last attempt. -/

/-- Exactly one terminal `done` or `error` event. -/
def termStrict : List Event → Bool
  | [Event.done] => true
  | [Event.error _] => true
  | _ => false

/-- One `done`, one `error`, or the inline throttling error followed by
the RuntimeError error. -/
def termLoose : List Event → Bool
  | [Event.done] => true
  | [Event.error _] => true
  | [Event.error _, Event.error _] => true
  | _ => false

/-- After the optional citations batch: at most one guardrail event, then
the terminal events. -/
def afterCitations (t : List Event → Bool) : List Event → Bool
  | Event.guardrail _ :: es => t es
  | es => t es

/-- After the session id: text events in order, then at most one
citations batch, then the rest. -/
def afterTexts (t : List Event → Bool) : List Event → Bool
  | Event.text _ :: es => afterTexts t es
  | Event.citations _ :: es => afterCitations t es
  | es => afterCitations t es

/-- After the conversation id: `sessionExpired` events, then at most one
session id, then the rest. -/
def afterConvId (t : List Event → Bool) : List Event → Bool
  | Event.sessionExpired :: es => afterConvId t es
  | Event.sessionId _ :: es => afterTexts t es
  | es => afterTexts t es

/-- The full event-order check. -/
def eventsOk (t : List Event → Bool) : List Event → Bool
  | Event.conversationId :: es => afterConvId t es
  | _ => false

/-! ## The chat endpoint (`chat` in `invoke-kb-stream/main.py`) -/

/-- The parsed request body of the chat endpoint. -/
structure ChatPayload where
  query : Option String
  sessionId : Option String
deriving DecidableEq

/-- The response of the chat endpoint: a plain JSON dict (which FastAPI
serves with its default status code 200) or the streaming response. -/
inductive ChatResponse where
  | json (status : Nat) (errorMsg : String)
  | streaming (status : Nat) (out : RunOut)
deriving DecidableEq

/-- Model of the `chat` route handler: a missing or empty `query` returns
the error dict (status 200, FastAPI default for a returned dict);
otherwise the streaming response wraps `stream_kb_response`. -/
def chat (region : String) (beh : Nat → CallResult) (p : ChatPayload) : ChatResponse :=
  match p.query with
  | none => .json 200 "Missing required parameter: query"
  | some q =>
    if q = "" then .json 200 "Missing required parameter: query"
    else .streaming 200 (stream_kb_response region beh p.sessionId)

/-- The HTTP status of a chat response. -/
def chatStatus : ChatResponse → Nat
  | .json st _ => st
  | .streaming st _ => st

/-- Number of backend calls a chat response causes. -/
def chatBackendCalls : ChatResponse → Nat
  | .json _ _ => 0
  | .streaming _ out => (callsOf out.trace).length

/-! ## The feedback endpoint (`submit_feedback` in `admin-api/index.py`) -/

/-- Result of a feedback submission: the HTTP status and the number of
store operations (query plus update) performed. -/
structure FeedbackOut where
  status : Nat
  storeCalls : Nat
deriving DecidableEq

/-- The normalization table of the source: `positive`, `+`, `up` become
`pos`; `negative`, `-`, `down` become `neg`; everything else is kept. -/
def normalizeFeedback : Option String → Option String
  | some v =>
    if v = "positive" || v = "+" || v = "up" then some "pos"
    else if v = "negative" || v = "-" || v = "down" then some "neg"
    else some v
  | none => none

/-- Model of `submit_feedback`: a falsy conversation id or a feedback
value outside `pos`/`neg` after normalization returns 400 before any
store access; otherwise the conversation is looked up (one store call,
404 when absent) and the feedback fields are updated (a second store
call, then 200). -/
def submit_feedback (convLookup : String → Option String)
    (conversationId feedback : Option String) : FeedbackOut :=
  match conversationId with
  | none => ⟨400, 0⟩
  | some cid =>
    if cid = "" then ⟨400, 0⟩
    else
      let fbv := normalizeFeedback feedback
      if fbv = some "pos" || fbv = some "neg" then
        match convLookup cid with
        | none => ⟨404, 1⟩
        | some _ => ⟨200, 2⟩
      else ⟨400, 0⟩

/-- Decidable equality for `Except` results, used to evaluate the models
on concrete inputs. -/
instance {ε α : Type} [DecidableEq ε] [DecidableEq α] : DecidableEq (Except ε α) := fun a b =>
  match a, b with
  | .ok x, .ok y =>
    if h : x = y then .isTrue (by rw [h]) else .isFalse (by intro hc; cases hc; exact h rfl)
  | .error x, .error y =>
    if h : x = y then .isTrue (by rw [h]) else .isFalse (by intro hc; cases hc; exact h rfl)
  | .ok _, .error _ => .isFalse (by intro hc; cases hc)
  | .error _, .ok _ => .isFalse (by intro hc; cases hc)

/-! ## Calendar dates

The admin handler manipulates `datetime` values parsed by `strptime`
(which only ever yields valid calendar dates).  Dates are modelled as a
year/month/day triple with the proleptic-Gregorian day ordinal `dateOrd`;
`datetime` comparison, `timedelta(days=1)` stepping and `max`/`min` are
chronological, which `dateOrd` mirrors (it is strictly monotone on valid
dates, proved below). -/

/-- Gregorian leap-year rule. -/
def isLeap (y : Nat) : Bool :=
  y % 4 == 0 && (y % 100 != 0 || y % 400 == 0)

/-- Length of month `m` of year `y`. -/
def daysInMonth (y m : Nat) : Nat :=
  if m = 2 then (if isLeap y then 29 else 28)
  else if m = 4 || m = 6 || m = 9 || m = 11 then 30
  else 31

/-- Days before month `m` within a year (`daysBeforeMonth y 1 = 0`). -/
def daysBeforeMonth (y : Nat) : Nat → Nat
  | 0 => 0
  | m + 1 => if m = 0 then 0 else daysBeforeMonth y m + daysInMonth y m

/-- Days before January 1 of year `y`, counted from year 1. -/
def daysBeforeYear (y : Nat) : Nat :=
  365 * (y - 1) + (y - 1) / 4 + (y - 1) / 400 - (y - 1) / 100

/-- A calendar date. -/
structure Date where
  year : Nat
  month : Nat
  day : Nat
deriving DecidableEq

/-- Day ordinal of a date (January 1 of year 1 is day 1). -/
def dateOrd (d : Date) : Nat :=
  daysBeforeYear d.year + daysBeforeMonth d.year d.month + d.day

/-- Validity of a calendar date, as guaranteed by `strptime`. -/
def ValidDate (d : Date) : Prop :=
  1 ≤ d.year ∧ 1 ≤ d.month ∧ d.month ≤ 12 ∧ 1 ≤ d.day ∧ d.day ≤ daysInMonth d.year d.month

instance (d : Date) : Decidable (ValidDate d) := by
  unfold ValidDate
  infer_instance

/-! ## Aggregation engine (`admin-api/index.py`) -/

/-- The per-day aggregate computed by `query_date_stats` (pagination is
internal to it and already summed here). -/
structure DayStats where
  count : Nat
  positive : Nat
  negative : Nat
  no_feedback : Nat
  total_response_time : Nat
  response_time_count : Nat
deriving DecidableEq

/-- The all-zero day statistics.  The source records a zero dict without
the two response-time keys for a failed day; every later read uses
`.get(..., 0)` defaults, so the all-zero record is observationally the
same. -/
def zeroDayStats : DayStats := ⟨0, 0, 0, 0, 0, 0⟩

/-- Fieldwise sum, the merge operation of the fan-out. -/
def addStats (a b : DayStats) : DayStats :=
  ⟨a.count + b.count, a.positive + b.positive, a.negative + b.negative,
    a.no_feedback + b.no_feedback, a.total_response_time + b.total_response_time,
    a.response_time_count + b.response_time_count⟩

/-- Association-list lookup (Python dict read). -/
def alookup {κ ν : Type} [DecidableEq κ] (k : κ) : List (κ × ν) → Option ν
  | [] => none
  | (k2, v) :: rest => if k = k2 then some v else alookup k rest

/-- Association-list deletion (Python `del`). -/
def aerase {κ ν : Type} [DecidableEq κ] (k : κ) : List (κ × ν) → List (κ × ν)
  | [] => []
  | (k2, v) :: rest => if k2 = k then aerase k rest else (k2, v) :: aerase k rest

/-- The day ordinals of the range `[s, e]`, as enumerated by the
`while current <= end` loop of the source. -/
def datesIn (s e : Date) : List Nat :=
  (List.range (dateOrd e + 1 - dateOrd s)).map (fun i => dateOrd s + i)

/-- Output of `parallel_query_stats`: the per-day map and the merged
totals. -/
structure PQOut where
  daily : List (Nat × DayStats)
  totals : DayStats
deriving DecidableEq

/-- One completed worker merged into the accumulator: a raising per-day
query contributes a zero-filled day record and leaves the totals alone,
a successful one contributes its record to both. -/
def pqStep (store : Nat → DayStats) (failing : Nat → Bool) (acc : PQOut) (d : Nat) : PQOut :=
  if failing d then ⟨acc.daily ++ [(d, zeroDayStats)], acc.totals⟩
  else ⟨acc.daily ++ [(d, store d)], addStats acc.totals (store d)⟩

/-- Model of `parallel_query_stats`.  `store d` is the aggregate the
per-day query returns for day ordinal `d` and `failing d` says whether it
raises.  With an empty date list the source constructs
`ThreadPoolExecutor(max_workers=min(10, 0))`, which raises `ValueError`;
otherwise the workers all join and the results merge by commutative sums
into key-distinct map entries, so the nondeterministic `as_completed`
order is modelled by an in-order fold. -/
def parallel_query_stats (store : Nat → DayStats) (failing : Nat → Bool)
    (s e : Date) : Except String PQOut :=
  let dates := datesIn s e
  if min 10 dates.length = 0 then .error "max_workers must be greater than 0"
  else .ok (dates.foldl (pqStep store failing) ⟨[], zeroDayStats⟩)

/-- One point of the dashboard chart, reduced to the data the claims are
about: the first and last day ordinal the bucket covers and its count.
Daily points of the source carry no end date; they are modelled with
`endOrd = startOrd`.  The human labels are pure `strftime` formatting and
are not modelled. -/
structure ChartPoint where
  startOrd : Nat
  endOrd : Nat
  count : Nat
deriving DecidableEq

/-- `daily_stats.get(date, {}).get("count", 0)` of the source. -/
def lookupCount (daily : List (Nat × DayStats)) (d : Nat) : Nat :=
  match alookup d daily with
  | some st => st.count
  | none => 0

/-- Sum of the day counts over the ordinal interval `[a, b]`, the inner
summation loop of the weekly and monthly branches. -/
def sumCounts (daily : List (Nat × DayStats)) (a b : Nat) : Nat :=
  ((List.range (b + 1 - a)).map (fun i => lookupCount daily (a + i))).sum

/-- The daily chart loop: one point per day from `cur` on, `n` days. -/
def dailyChart (daily : List (Nat × DayStats)) (cur : Nat) : Nat → List ChartPoint
  | 0 => []
  | n + 1 => ⟨cur, cur, lookupCount daily cur⟩ :: dailyChart daily (cur + 1) n

/-- The weekly chart loop: each iteration covers
`[cur, min (cur + 6) endOrd]` and continues after that week.  `fuel`
bounds the recursion; it is adequate whenever `fuel ≥ endOrd + 1 - cur`
since every iteration advances `cur`. -/
def weeklyGo (daily : List (Nat × DayStats)) (endOrd : Nat) : Nat → Nat → List ChartPoint
  | 0, _ => []
  | fuel + 1, cur =>
    if cur ≤ endOrd then
      ⟨cur, min (cur + 6) endOrd, sumCounts daily cur (min (cur + 6) endOrd)⟩ ::
        weeklyGo daily endOrd fuel (min (cur + 6) endOrd + 1)
    else []

/-- Ordinal of the first day of month `m` of year `y`. -/
def monthFirstOrd (y m : Nat) : Nat := dateOrd ⟨y, m, 1⟩

/-- The monthly chart loop over (year, month) pairs: each iteration
covers the month clipped to `[sOrd, eOrd]` and steps to the next month.
`fuel` bounds the recursion; the bucketing theorem shows it is exact for
valid ranges. -/
def monthlyGo (daily : List (Nat × DayStats)) (sOrd eOrd : Nat) :
    Nat → Nat → Nat → List ChartPoint
  | 0, _, _ => []
  | fuel + 1, y, m =>
    if monthFirstOrd y m ≤ eOrd then
      ⟨max (monthFirstOrd y m) sOrd,
        min (monthFirstOrd y m + daysInMonth y m - 1) eOrd,
        sumCounts daily (max (monthFirstOrd y m) sOrd)
          (min (monthFirstOrd y m + daysInMonth y m - 1) eOrd)⟩ ::
        monthlyGo daily sOrd eOrd fuel (if m = 12 then y + 1 else y)
          (if m = 12 then 1 else m + 1)
    else []

/-- The chart construction of `get_stats`: branch on the day span
(`days <= 31` daily, `days <= 90` weekly, else monthly starting at the
first of the start month). -/
def buildChart (daily : List (Nat × DayStats)) (s e : Date) (days : Int) : List ChartPoint :=
  if days ≤ 31 then dailyChart daily (dateOrd s) (dateOrd e + 1 - dateOrd s)
  else if days ≤ 90 then weeklyGo daily (dateOrd e) (dateOrd e + 1 - dateOrd s) (dateOrd s)
  else monthlyGo daily (dateOrd s) (dateOrd e)
    (12 * e.year + e.month + 1 - (12 * s.year + s.month)) s.year s.month

/-- Round-half-to-even of the exact fraction `a / b` (`b > 0`), modelling
CPython `round` on the corresponding value.  (CPython rounds the nearest
binary float; the claims under verification do not depend on the corner
cases where that differs from exact rational rounding.) -/
def roundHalfEvenDiv (a b : Nat) : Nat :=
  let q := a / b
  let r := a % b
  if 2 * r < b then q
  else if b < 2 * r then q + 1
  else if q % 2 = 0 then q else q + 1

/-- The response body of `get_stats`.  The satisfaction rate
`round(pos / (pos + neg) * 100, 1)` is carried in tenths of a percent so
that it stays in `Nat`. -/
structure StatsResponse where
  totalConversations : Nat
  conversationsToday : Nat
  totalFeedback : Nat
  positiveFeedback : Nat
  negativeFeedback : Nat
  noFeedback : Nat
  satisfactionRateTenths : Nat
  avgResponseTimeMs : Nat
  conversationsByDay : List ChartPoint
  periodDays : Int
  periodStart : Date
  periodEnd : Date
deriving DecidableEq

/-- The derived statistics and chart of `get_stats` after the parallel
query. -/
def buildResponse (pq : PQOut) (s e today : Date) (days : Int) : StatsResponse :=
  let totals := pq.totals
  let totalFb := totals.positive + totals.negative
  { totalConversations := totals.count
    conversationsToday := lookupCount pq.daily (dateOrd today)
    totalFeedback := totalFb
    positiveFeedback := totals.positive
    negativeFeedback := totals.negative
    noFeedback := totals.no_feedback
    satisfactionRateTenths :=
      if 0 < totalFb then roundHalfEvenDiv (1000 * totals.positive) totalFb else 0
    avgResponseTimeMs :=
      if 0 < totals.response_time_count then
        roundHalfEvenDiv totals.total_response_time totals.response_time_count
      else 0
    conversationsByDay := buildChart pq.daily s e days
    periodDays := days
    periodStart := s
    periodEnd := e }

/-- The module-level stats cache, keyed by the `(startDate, endDate)`
pair (the source key string `"stats:{start}:{end}"` is injective in the
pair).  Python dict mutation is modelled by association lists read
through `alookup`. -/
structure Cache where
  stats : List ((Date × Date) × StatsResponse)
  stamps : List ((Date × Date) × Nat)
deriving DecidableEq

/-- The empty cache. -/
def emptyCache : Cache := ⟨[], []⟩

/-- Model of `get_cached_result` at time `t` (seconds): a hit within the
60-second TTL returns the entry, an expired entry is deleted from both
dicts.  A missing timestamp defaults to 0 as in the source. -/
def get_cached_result (c : Cache) (t : Nat) (key : Date × Date) :
    Option StatsResponse × Cache :=
  match alookup key c.stats with
  | none => (none, c)
  | some v =>
    if t - (alookup key c.stamps).getD 0 < 60 then (some v, c)
    else (none, ⟨aerase key c.stats, aerase key c.stamps⟩)

/-- Model of `set_cached_result`. -/
def set_cached_result (c : Cache) (key : Date × Date) (v : StatsResponse) (t : Nat) : Cache :=
  ⟨(key, v) :: aerase key c.stats, (key, t) :: aerase key c.stamps⟩

/-- Model of `get_stats` on the explicit `startDate`/`endDate` branch
(`strptime` has already validated the dates).  Returns the response, the
cache after the call, and the number of per-day store queries issued. -/
def get_stats (store : Nat → DayStats) (failing : Nat → Bool)
    (s e today : Date) (t : Nat) (c : Cache) :
    Except String (StatsResponse × Cache × Nat) :=
  let key := (s, e)
  let days : Int := (dateOrd e : Int) - (dateOrd s : Int) + 1
  match get_cached_result c t key with
  | (some v, c1) => .ok (v, c1, 0)
  | (none, c1) =>
    match parallel_query_stats store failing s e with
    | .error m => .error m
    | .ok pq =>
      let resp := buildResponse pq s e today days
      .ok (resp, set_cached_result c1 key resp t, (datesIn s e).length)

/-! ### Specification-side chart bucket shapes (for the bucketing claim) -/

/-- Year of a month index `12 * y + m` with `1 ≤ m ≤ 12`. -/
def idxYear (idx : Nat) : Nat := (idx - 1) / 12

/-- Month of a month index `12 * y + m` with `1 ≤ m ≤ 12`. -/
def idxMonth (idx : Nat) : Nat := (idx - 1) % 12 + 1

/-- Ordinal of the first day of the month with month index `idx`. -/
def ordFirst (idx : Nat) : Nat := monthFirstOrd (idxYear idx) (idxMonth idx)

/-- The i-th daily point: one point per day. -/
def dailyPointSpec (daily : List (Nat × DayStats)) (sOrd i : Nat) : ChartPoint :=
  ⟨sOrd + i, sOrd + i, lookupCount daily (sOrd + i)⟩

/-- The i-th weekly point: a 7-day week starting at `sOrd + 7 * i`, the
final week truncated to the range end. -/
def weeklyPointSpec (daily : List (Nat × DayStats)) (sOrd eOrd i : Nat) : ChartPoint :=
  ⟨sOrd + 7 * i, min (sOrd + 7 * i + 6) eOrd,
    sumCounts daily (sOrd + 7 * i) (min (sOrd + 7 * i + 6) eOrd)⟩

/-- The point of the calendar month with month index `idx`, clipped to
the range bounds. -/
def monthlyPointSpec (daily : List (Nat × DayStats)) (sOrd eOrd idx : Nat) : ChartPoint :=
  ⟨max (monthFirstOrd (idxYear idx) (idxMonth idx)) sOrd,
    min (monthFirstOrd (idxYear idx) (idxMonth idx)
      + daysInMonth (idxYear idx) (idxMonth idx) - 1) eOrd,
    sumCounts daily (max (monthFirstOrd (idxYear idx) (idxMonth idx)) sOrd)
      (min (monthFirstOrd (idxYear idx) (idxMonth idx)
        + daysInMonth (idxYear idx) (idxMonth idx) - 1) eOrd)⟩

/-! ## Concrete fixtures used by counterexamples and witnesses -/

/-- A backend that raises a throttling error on every call. -/
def behThrottleAll : Nat → CallResult := fun _ => .err "ThrottlingException"

/-- A backend that raises a non-throttling, non-session error on the
first call. -/
def behFatal : Nat → CallResult := fun _ => .err "boom"

/-- An empty successful response. -/
def emptyResp : StreamResponse := ⟨none, []⟩

/-- A small successful response with a session id and one text chunk. -/
def okResp : StreamResponse := ⟨some "sid1", [⟨some "hello", none, none⟩]⟩

/-- Throttling on the first three calls, success afterwards: the
behaviour of the retry claim. -/
def behThreeThrottle : Nat → CallResult := fun n =>
  if n < 3 then .err "ThrottlingException" else .success okResp

/-- Throttling on the first two calls, success on the third. -/
def behTwoThrottle : Nat → CallResult := fun n =>
  if n < 2 then .err "ThrottlingException" else .success okResp

/-- An invalid-session error on the first two calls, success on the
third. -/
def behTwoSessionInvalid : Nat → CallResult := fun n =>
  if n ≤ 1 then .err "Session with Id abc is not valid" else .success okResp

/-- A constant per-day store used by the aggregation fixtures. -/
def fixtureStore : Nat → DayStats := fun _ => ⟨2, 1, 1, 0, 100, 1⟩

/-- The date 2024-01-01. -/
def dJan1 : Date := ⟨2024, 1, 1⟩

/-- The cache state left behind by a stats call for the pair
`(dJan1, dJan1)` at time 0, starting from the empty cache. -/
def warmCache : Cache :=
  match get_stats fixtureStore (fun _ => false) dJan1 dJan1 dJan1 0 emptyCache with
  | .ok (_, c, _) => c
  | .error _ => emptyCache

/-- The number of per-day queries of a stats result, when it succeeded. -/
def queriesOf (r : Except String (StatsResponse × Cache × Nat)) : Option Nat :=
  r.toOption.map (fun x => x.2.2)

/-- The cache left behind by a stats result, when it succeeded. -/
def cacheOf (r : Except String (StatsResponse × Cache × Nat)) : Option Cache :=
  r.toOption.map (fun x => x.2.1)

/-- The response of a stats result, when it succeeded. -/
def respOf (r : Except String (StatsResponse × Cache × Nat)) : Option StatsResponse :=
  r.toOption.map (fun x => x.1)

/-! ## Theorems

First the supporting lemmas about string containment and the S3 uri
parse, then the claims, in order. -/

theorem strContains_of_prefix (n hay : List Char) (h : n <+: hay) :
    strContains n hay = true := by
  cases hay with
  | nil =>
    obtain ⟨t, ht⟩ := h
    rcases List.append_eq_nil.mp ht with ⟨hn, _⟩
    subst hn
    rfl
  | cons c tl =>
    show (n.isPrefixOf (c :: tl) || strContains n tl) = true
    rw [List.isPrefixOf_iff_prefix.mpr h]
    simp

theorem strContains_append (n a b : List Char) : strContains n (a ++ (n ++ b)) = true := by
  induction a with
  | nil =>
    simp only [List.nil_append]
    exact strContains_of_prefix n (n ++ b) (List.prefix_append n b)
  | cons c a ih =>
    simp only [List.cons_append]
    show (n.isPrefixOf (c :: (a ++ (n ++ b))) || strContains n (a ++ (n ++ b))) = true
    rw [ih]
    simp

theorem splitFirstSlash_eq :
    ∀ (l b k : List Char), splitFirstSlash l = some (b, k) → l = b ++ '/' :: k := by
  intro l
  induction l with
  | nil => intro b k h; simp [splitFirstSlash] at h
  | cons c rest ih =>
    intro b k h
    simp only [splitFirstSlash] at h
    by_cases hc : c = '/'
    · rw [if_pos hc] at h
      cases h
      simp [hc]
    · rw [if_neg hc] at h
      cases hsp : splitFirstSlash rest with
      | none => rw [hsp] at h; cases h
      | some bk =>
        rw [hsp] at h
        obtain ⟨b2, k2⟩ := bk
        cases h
        have hrest := ih b2 k hsp
        simp [hrest]

theorem matchKeyPart_eq (kp k : List Char) (h : matchKeyPart kp = some k) :
    ∃ tl, kp = k ++ tl := by
  simp only [matchKeyPart] at h
  split_ifs at h with h1 h2
  cases h
  refine ⟨kp.dropWhile (fun c => c ≠ '\n'), ?_⟩
  rw [List.takeWhile_append_dropWhile]

theorem matchS3Uri_decomp (u b k : List Char) (h : matchS3Uri u = some (b, k)) :
    ∃ tl, u = 's' :: '3' :: ':' :: '/' :: '/' :: (b ++ '/' :: (k ++ tl)) := by
  unfold matchS3Uri at h
  split at h
  · rename_i rest
    split at h
    · cases h
    · rename_i b2 kp hsp
      split_ifs at h with hb
      split at h
      · rename_i key hkey
        cases h
        obtain ⟨tl, htl⟩ := matchKeyPart_eq kp k hkey
        refine ⟨tl, ?_⟩
        have hr := splitFirstSlash_eq rest b kp hsp
        rw [hr, htl]
      · cases h
  · cases h

theorem s3_match_public_contains (u b k : List Char)
    (hm : matchS3Uri u = some (b, k))
    (hp : "public/".data.isPrefixOf k = true) :
    u ≠ [] ∧ strContains "/public/".data u = true := by
  obtain ⟨tl, hu⟩ := matchS3Uri_decomp u b k hm
  constructor
  · rw [hu]
    simp
  · obtain ⟨k2, hk⟩ := List.isPrefixOf_iff_prefix.mp hp
    have hshape : u = ("s3://".data ++ b) ++ ("/public/".data ++ (k2 ++ tl)) := by
      rw [hu, ← hk]
      have h1 : "s3://".data = ['s', '3', ':', '/', '/'] := rfl
      have h2 : "/public/".data = '/' :: "public/".data := rfl
      simp [h1, h2, List.append_assoc]
    rw [hshape]
    exact strContains_append "/public/".data ("s3://".data ++ b) (k2 ++ tl)

theorem s3_uri_to_public_url_eq (region uri : String) :
    s3_uri_to_public_url region uri =
      (match matchS3Uri uri.data with
      | none => none
      | some (b, k) =>
        if "public/".data.isPrefixOf k then some (publicUrl region b k) else none) := by
  unfold s3_uri_to_public_url
  split_ifs with hpre
  · cases hm : matchS3Uri uri.data with
    | none => rfl
    | some bk =>
      obtain ⟨b, k⟩ := bk
      by_cases hp : "public/".data.isPrefixOf k = true
      · exfalso
        obtain ⟨hne, hcont⟩ := s3_match_public_contains uri.data b k hm hp
        have hne2 : ¬uri = "" := by
          intro he
          rw [he] at hne
          exact hne rfl
        simp [hne2, hcont] at hpre
      · simp only [Bool.not_eq_true] at hp
        simp [hp]
  · rfl

/-- C3: a reference appears in the formatted citation exactly when it is
WEB with a nonempty url or S3 with a well-formed `s3://bucket/key` uri
whose key starts with `public/`; kept S3 references are rewritten to
`https://bucket.s3.region.amazonaws.com/key`, kept WEB references keep
their url, and all other references are dropped (the formatting function
is total, so dropping never raises). -/
theorem format_citation_keeps_exactly_spec (region : String) (c : CitationIn) :
    (format_citation region c).retrievedReferences
      = c.retrievedReferences.filterMap (citationKeepSpec region) := by
  obtain ⟨refs⟩ := c
  show format_citation_loop region refs = _
  induction refs with
  | nil => rfl
  | cons ref rest ih =>
    simp only [format_citation_loop, List.filterMap_cons]
    rw [ih]
    by_cases hS3 : ref.locationType = "S3"
    · rw [if_pos hS3]
      unfold citationKeepSpec
      rw [if_neg (by simp [hS3]), if_pos hS3, s3_uri_to_public_url_eq]
      cases hm : matchS3Uri ref.s3Uri.data with
      | none => simp
      | some bk =>
        obtain ⟨b, k⟩ := bk
        by_cases hp : "public/".data.isPrefixOf k = true
        · simp [hp]
        · simp only [Bool.not_eq_true] at hp
          simp [hp]
    · rw [if_neg hS3]
      by_cases hW : ref.locationType = "WEB"
      · rw [if_pos hW]
        unfold citationKeepSpec
        by_cases hu : ref.webUrl = ""
        · simp [hW, hu, hS3]
        · simp [hW, hu]
      · rw [if_neg hW]
        unfold citationKeepSpec
        simp [hS3, hW]

/-! ### Relay event-order lemmas -/

theorem processStream_events_shape (region : String) (cs : List StreamElem) :
    ∃ ts : List String, (processStream region cs).events = ts.map Event.text := by
  induction cs with
  | nil => exact ⟨[], rfl⟩
  | cons el cs ih =>
    obtain ⟨ts, hts⟩ := ih
    cases ho : el.output with
    | some s =>
      refine ⟨s :: ts, ?_⟩
      simp [processStream, ho, hts]
    | none =>
      refine ⟨ts, ?_⟩
      simp [processStream, ho, hts]

theorem afterTexts_mapText (t : List Event → Bool) (ts : List String) (rest : List Event) :
    afterTexts t (ts.map Event.text ++ rest) = afterTexts t rest := by
  induction ts with
  | nil => rfl
  | cons s ts ih =>
    show afterTexts t (ts.map Event.text ++ rest) = afterTexts t rest
    exact ih

theorem afterTexts_tail (t : List Event → Bool) (htdone : t [Event.done] = true)
    (cits : List CitationOut) (g : Option String) :
    afterTexts t ((if cits.isEmpty then [] else [Event.citations cits])
      ++ ((if optTruthy g then [Event.guardrail (g.getD "")] else []) ++ [Event.done]))
      = true := by
  by_cases hc : cits.isEmpty <;> by_cases hg : optTruthy g <;>
    simp only [hc, hg, if_pos, if_neg, Bool.not_eq_true, List.nil_append,
      List.cons_append, List.singleton_append] <;>
    exact htdone

theorem afterConvId_tail (t : List Event → Bool) (htdone : t [Event.done] = true)
    (cits : List CitationOut) (g : Option String) :
    afterConvId t ((if cits.isEmpty then [] else [Event.citations cits])
      ++ ((if optTruthy g then [Event.guardrail (g.getD "")] else []) ++ [Event.done]))
      = true := by
  by_cases hc : cits.isEmpty <;> by_cases hg : optTruthy g <;>
    simp only [hc, hg, if_pos, if_neg, Bool.not_eq_true, List.nil_append,
      List.cons_append, List.singleton_append] <;>
    exact htdone

theorem afterConvId_successTail (region : String) (t : List Event → Bool)
    (htdone : t [Event.done] = true) (resp : StreamResponse) :
    afterConvId t (successTail region resp) = true := by
  simp only [successTail]
  obtain ⟨ts, hts⟩ := processStream_events_shape region resp.stream
  rw [hts]
  by_cases hs : optTruthy resp.sessionId
  · rw [if_pos hs]
    simp only [List.append_assoc, List.singleton_append]
    show afterTexts t (ts.map Event.text ++ _) = true
    rw [afterTexts_mapText]
    exact afterTexts_tail t htdone _ _
  · rw [if_neg hs]
    simp only [List.append_assoc, List.nil_append]
    cases ts with
    | nil =>
      simp only [List.map_nil, List.nil_append]
      exact afterConvId_tail t htdone _ _
    | cons s ts =>
      simp only [List.map_cons, List.cons_append]
      show afterTexts t (ts.map Event.text ++ _) = true
      rw [afterTexts_mapText]
      exact afterTexts_tail t htdone _ _

theorem afterConvId_error (t : List Event → Bool) (m : String) :
    afterConvId t [Event.error m] = t [Event.error m] := rfl

theorem afterConvId_error2 (t : List Event → Bool) (m1 m2 : String) :
    afterConvId t [Event.error m1, Event.error m2] = t [Event.error m1, Event.error m2] := rfl

theorem attemptLoop_parse (region : String) (beh : Nat → CallResult) (t : List Event → Bool)
    (htdone : t [Event.done] = true) (hterr : ∀ m, t [Event.error m] = true)
    (hterr2 : ∀ m1 m2, t [Event.error m1, Event.error m2] = true) :
    ∀ (r a : Nat) (tok : Option String),
      afterConvId t ((attemptLoop beh r a tok).events
        ++ contEvents region (attemptLoop beh r a tok).result) = true := by
  intro r
  induction r with
  | zero =>
    intro a tok
    simp only [attemptLoop, contEvents, List.nil_append]
    rw [afterConvId_error]
    exact hterr _
  | succ r ih =>
    intro a tok
    cases hb : beh a with
    | success resp =>
      simp only [attemptLoop, hb, contEvents, List.nil_append]
      exact afterConvId_successTail region t htdone resp
    | err msg =>
      by_cases hth : isThrottling msg = true
      · by_cases hlt : a < maxRetries - 1
        · simp only [attemptLoop, hb, hth, if_pos, if_true, hlt]
          exact ih (a + 1) tok
        · simp only [attemptLoop, hb, hth, if_pos, if_true, if_neg hlt, contEvents,
            List.singleton_append]
          rw [afterConvId_error2]
          exact hterr2 _ _
      · simp only [Bool.not_eq_true] at hth
        by_cases hsi : isSessionInvalid msg = true
        · simp only [attemptLoop, hb, hth, Bool.false_eq_true, if_false, hsi, if_true]
          show afterConvId t ((attemptLoop beh r (a + 1) none).events
            ++ contEvents region (attemptLoop beh r (a + 1) none).result) = true
          exact ih (a + 1) none
        · simp only [Bool.not_eq_true] at hsi
          simp only [attemptLoop, hb, hth, hsi, Bool.false_eq_true, if_false, contEvents,
            List.nil_append]
          rw [afterConvId_error]
          exact hterr _

theorem callsOf_call (tok : Option String) (tr : List Action) :
    callsOf (Action.call tok :: tr) = tok :: callsOf tr := rfl

theorem callsOf_sleep (ms : Nat) (tr : List Action) :
    callsOf (Action.sleep ms :: tr) = callsOf tr := rfl

theorem attemptLoop_trace_cons (beh : Nat → CallResult) (r a : Nat) (tok : Option String) :
    ∃ tr, (attemptLoop beh (r + 1) a tok).trace = Action.call tok :: tr := by
  cases hb : beh a with
  | success resp => exact ⟨[], by simp [attemptLoop, hb]⟩
  | err msg =>
    by_cases hth : isThrottling msg = true
    · by_cases hlt : a < maxRetries - 1
      · exact ⟨Action.sleep (backoffBaseMs * 2 ^ a) :: (attemptLoop beh r (a + 1) tok).trace,
          by simp [attemptLoop, hb, hth, hlt]⟩
      · exact ⟨[], by simp [attemptLoop, hb, hth, hlt]⟩
    · by_cases hsi : isSessionInvalid msg = true
      · exact ⟨(attemptLoop beh r (a + 1) none).trace,
          by simp [attemptLoop, hb, hth, hsi]⟩
      · exact ⟨[], by simp [attemptLoop, hb, hth, hsi]⟩

theorem attemptLoop_calls_none (beh : Nat → CallResult) :
    ∀ (r a : Nat), ∀ tok' ∈ callsOf (attemptLoop beh r a none).trace, tok' = none := by
  intro r
  induction r with
  | zero => intro a tok' h; simp [attemptLoop, callsOf] at h
  | succ r ih =>
    intro a tok' h
    cases hb : beh a with
    | success resp =>
      simp [attemptLoop, hb, callsOf] at h
      exact h
    | err msg =>
      by_cases hth : isThrottling msg = true
      · by_cases hlt : a < maxRetries - 1
        · simp only [attemptLoop, hb, hth, if_true, if_pos hlt] at h
          rw [callsOf_call, callsOf_sleep] at h
          rcases List.mem_cons.mp h with h | h
          · exact h
          · exact ih (a + 1) tok' h
        · simp [attemptLoop, hb, hth, hlt, callsOf] at h
          exact h
      · simp only [Bool.not_eq_true] at hth
        by_cases hsi : isSessionInvalid msg = true
        · simp only [attemptLoop, hb, hth, Bool.false_eq_true, if_false, hsi, if_true] at h
          rw [callsOf_call] at h
          rcases List.mem_cons.mp h with h | h
          · exact h
          · exact ih (a + 1) tok' h
        · simp [attemptLoop, hb, hth, hsi, callsOf] at h
          exact h

theorem successTail_ends_done (region : String) (resp : StreamResponse) :
    ∃ pre, successTail region resp = pre ++ [Event.done] :=
  ⟨_, rfl⟩

/-- C1 (amended): within one relay invocation the caller sees one
conversationId event first (emitted before any backend call), then zero
or more sessionExpired events, then at most one sessionId event, then
text events in backend emission order, then at most one batched citations
event, then at most one guardrail event, then a terminal part that is one
done event, one error event, or — exactly when throttling persists
through the last attempt — the inline throttling error followed by the
RuntimeError error event (so up to two error events, not one); when the
first backend call fails fatally the sequence is exactly
[conversationId, error]. -/
theorem relay_event_order (region : String) (beh : Nat → CallResult) (sid : Option String) :
    eventsOk termLoose (stream_kb_response region beh sid).events = true ∧
    (∀ msg, beh 0 = CallResult.err msg → isThrottling msg = false →
      isSessionInvalid msg = false →
      (stream_kb_response region beh sid).events
        = [Event.conversationId, Event.error msg]) := by
  constructor
  · show afterConvId termLoose
      ((attemptLoop beh maxRetries 0 (useSessionId sid)).events
        ++ contEvents region (attemptLoop beh maxRetries 0 (useSessionId sid)).result) = true
    exact attemptLoop_parse region beh termLoose rfl (fun _ => rfl) (fun _ _ => rfl)
      maxRetries 0 (useSessionId sid)
  · intro msg h0 hth hsi
    simp [stream_kb_response, attemptLoop, maxRetries, h0, hth, hsi, contEvents]

/-- C1 witness: the event-order check holds for a concrete fatally
failing backend, and the fatal first call yields exactly
[conversationId, error]. -/
theorem relay_event_order_witness :
    eventsOk termLoose (stream_kb_response "us-east-1" behFatal none).events = true ∧
    (stream_kb_response "us-east-1" behFatal none).events
      = [Event.conversationId, Event.error "boom"] :=
  ⟨(relay_event_order "us-east-1" behFatal none).1,
    (relay_event_order "us-east-1" behFatal none).2 "boom" rfl (by decide) (by decide)⟩

/-- C1 counterexample: with throttling on every call the relay emits the
inline throttling error and then the RuntimeError error — two error
events — so the claimed shape with exactly one terminal done-or-error
event is violated. -/
theorem relay_event_order_counterexample :
    eventsOk termStrict (stream_kb_response "us-east-1" behThrottleAll none).events = false ∧
    (stream_kb_response "us-east-1" behThrottleAll none).events
      = [Event.conversationId, Event.error (throttleMsgPre ++ "ThrottlingException"),
          Event.error failedMsg] := by
  decide

/-- C2 (amended): `for attempt in range(max_retries)` allows three
backend calls in total, so two consecutive throttling errors followed by
a success give exactly three calls with sleeps of 0.5 s and 1 s between
them and a normal event sequence ending in done, while three consecutive
throttling errors give exactly three calls with the same two sleeps and a
terminal error — a fourth call and a 2 s sleep never happen. -/
theorem relay_retry_backoff (region : String) (beh : Nat → CallResult) (sid : Option String) :
    (∀ m0 m1 resp, beh 0 = CallResult.err m0 → isThrottling m0 = true →
      beh 1 = CallResult.err m1 → isThrottling m1 = true →
      beh 2 = CallResult.success resp →
      (stream_kb_response region beh sid).trace
        = [Action.call (useSessionId sid), Action.sleep 500,
            Action.call (useSessionId sid), Action.sleep 1000,
            Action.call (useSessionId sid)] ∧
      (stream_kb_response region beh sid).events
        = Event.conversationId :: successTail region resp ∧
      ∃ pre, (stream_kb_response region beh sid).events = pre ++ [Event.done]) ∧
    (∀ m0 m1 m2, beh 0 = CallResult.err m0 → isThrottling m0 = true →
      beh 1 = CallResult.err m1 → isThrottling m1 = true →
      beh 2 = CallResult.err m2 → isThrottling m2 = true →
      (stream_kb_response region beh sid).trace
        = [Action.call (useSessionId sid), Action.sleep 500,
            Action.call (useSessionId sid), Action.sleep 1000,
            Action.call (useSessionId sid)] ∧
      (stream_kb_response region beh sid).events
        = [Event.conversationId, Event.error (throttleMsgPre ++ m2),
            Event.error failedMsg]) := by
  constructor
  · intro m0 m1 resp h0 ht0 h1 ht1 h2
    have htrace : (stream_kb_response region beh sid).events
        = Event.conversationId :: successTail region resp ∧
        (stream_kb_response region beh sid).trace
        = [Action.call (useSessionId sid), Action.sleep 500,
            Action.call (useSessionId sid), Action.sleep 1000,
            Action.call (useSessionId sid)] := by
      constructor <;>
        simp [stream_kb_response, attemptLoop, maxRetries, h0, h1, h2, ht0, ht1,
          contEvents, backoffBaseMs]
    refine ⟨htrace.2, htrace.1, ?_⟩
    obtain ⟨pre, hpre⟩ := successTail_ends_done region resp
    exact ⟨Event.conversationId :: pre, by rw [htrace.1, hpre]; simp⟩
  · intro m0 m1 m2 h0 ht0 h1 ht1 h2 ht2
    constructor <;>
      simp [stream_kb_response, attemptLoop, maxRetries, h0, h1, h2, ht0, ht1, ht2,
        contEvents, backoffBaseMs]

/-- C2 witness: the amended retry behaviour at a concrete backend that
throttles twice and then succeeds, and at one that always throttles. -/
theorem relay_retry_backoff_witness :
    ((stream_kb_response "us-east-1" behTwoThrottle none).trace
      = [Action.call none, Action.sleep 500, Action.call none, Action.sleep 1000,
          Action.call none] ∧
      (stream_kb_response "us-east-1" behTwoThrottle none).events
        = Event.conversationId :: successTail "us-east-1" okResp ∧
      ∃ pre, (stream_kb_response "us-east-1" behTwoThrottle none).events
        = pre ++ [Event.done]) ∧
    ((stream_kb_response "us-east-1" behThrottleAll none).trace
      = [Action.call none, Action.sleep 500, Action.call none, Action.sleep 1000,
          Action.call none] ∧
      (stream_kb_response "us-east-1" behThrottleAll none).events
        = [Event.conversationId, Event.error (throttleMsgPre ++ "ThrottlingException"),
            Event.error failedMsg]) :=
  ⟨(relay_retry_backoff "us-east-1" behTwoThrottle none).1 "ThrottlingException"
      "ThrottlingException" okResp (by decide) (by decide) (by decide) (by decide) rfl,
    (relay_retry_backoff "us-east-1" behThrottleAll none).2 "ThrottlingException"
      "ThrottlingException" "ThrottlingException" rfl (by decide) rfl (by decide) rfl
      (by decide)⟩

/-- C2 counterexample: with three consecutive throttling errors and a
backend that would succeed on a fourth call, the relay issues only three
calls (sleeping 0.5 s and 1 s), never makes the fourth call, and ends in
error events instead of done. -/
theorem relay_retry_backoff_counterexample :
    (callsOf (stream_kb_response "us-east-1" behThreeThrottle none).trace).length = 3 ∧
    sleepsOf (stream_kb_response "us-east-1" behThreeThrottle none).trace = [500, 1000] ∧
    (stream_kb_response "us-east-1" behThreeThrottle none).events
      = [Event.conversationId, Event.error (throttleMsgPre ++ "ThrottlingException"),
          Event.error failedMsg] := by
  decide

/-- C8 (amended): an invalid-session error makes the relay retry
immediately — no sleep between the two calls — with the session token
removed from the request; but the recovery is not limited to once per
request: the invalid-session branch shares the three-attempt budget, so a
recurring invalid-session signal is retried again (token already absent)
rather than propagated as fatal, until the attempts run out. -/
theorem relay_session_recovery (region : String) (beh : Nat → CallResult) (sid : Option String) :
    (∀ m0, beh 0 = CallResult.err m0 → isThrottling m0 = false →
      isSessionInvalid m0 = true →
      (stream_kb_response region beh sid).trace.take 2
        = [Action.call (useSessionId sid), Action.call none]) ∧
    (∀ m0 m1 resp, beh 0 = CallResult.err m0 → isThrottling m0 = false →
      isSessionInvalid m0 = true →
      beh 1 = CallResult.err m1 → isThrottling m1 = false → isSessionInvalid m1 = true →
      beh 2 = CallResult.success resp →
      (stream_kb_response region beh sid).trace
        = [Action.call (useSessionId sid), Action.call none, Action.call none] ∧
      (stream_kb_response region beh sid).events
        = Event.conversationId :: Event.sessionExpired :: Event.sessionExpired ::
            successTail region resp) := by
  constructor
  · intro m0 h0 hth hsi
    have hstep : (stream_kb_response region beh sid).trace
        = Action.call (useSessionId sid) :: (attemptLoop beh 2 1 none).trace := by
      simp [stream_kb_response, attemptLoop, maxRetries, h0, hth, hsi]
    obtain ⟨tr, htr⟩ := attemptLoop_trace_cons beh 1 1 none
    rw [hstep, htr]
    rfl
  · intro m0 m1 resp h0 hth0 hsi0 h1 hth1 hsi1 h2
    constructor <;>
      simp [stream_kb_response, attemptLoop, maxRetries, h0, h1, h2, hth0, hsi0,
        hth1, hsi1, contEvents]

/-- C8 witness: the amended recovery behaviour at a backend whose first
two calls raise the invalid-session error and whose third succeeds. -/
theorem relay_session_recovery_witness :
    ((stream_kb_response "us-east-1" behTwoSessionInvalid (some "tok")).trace.take 2
      = [Action.call (some "tok"), Action.call none]) ∧
    ((stream_kb_response "us-east-1" behTwoSessionInvalid (some "tok")).trace
      = [Action.call (some "tok"), Action.call none, Action.call none] ∧
      (stream_kb_response "us-east-1" behTwoSessionInvalid (some "tok")).events
        = Event.conversationId :: Event.sessionExpired :: Event.sessionExpired ::
            successTail "us-east-1" okResp) :=
  ⟨(relay_session_recovery "us-east-1" behTwoSessionInvalid (some "tok")).1
      "Session with Id abc is not valid" (by decide) (by decide) (by decide),
    (relay_session_recovery "us-east-1" behTwoSessionInvalid (some "tok")).2
      "Session with Id abc is not valid" "Session with Id abc is not valid" okResp
      (by decide) (by decide) (by decide) (by decide) (by decide) (by decide) (by decide)⟩

/-- C8 counterexample: the invalid-session signal recurs after the token
was cleared, yet the relay issues a third call and finishes with done
instead of propagating a fatal error. -/
theorem relay_session_recovery_counterexample :
    (callsOf (stream_kb_response "us-east-1" behTwoSessionInvalid (some "tok")).trace).length
      = 3 ∧
    (stream_kb_response "us-east-1" behTwoSessionInvalid (some "tok")).events
      = Event.conversationId :: Event.sessionExpired :: Event.sessionExpired ::
          successTail "us-east-1" okResp ∧
    (stream_kb_response "us-east-1" behTwoSessionInvalid (some "tok")).events.getLast?
      = some Event.done := by
  decide

/-- C10: a nonempty caller-supplied session id starting with `session-`
is discarded — every backend call of the request carries no session token
— while any other nonempty session id is forwarded verbatim on the first
backend call. -/
theorem session_prefix_token_handling (region : String) (beh : Nat → CallResult) (s : String) :
    (s ≠ "" → "session-".data.isPrefixOf s.data = true →
      ∀ tok ∈ callsOf (stream_kb_response region beh (some s)).trace, tok = none) ∧
    (s ≠ "" → "session-".data.isPrefixOf s.data = false →
      (callsOf (stream_kb_response region beh (some s)).trace).head? = some (some s)) := by
  constructor
  · intro hs hpre tok htok
    have huse : useSessionId (some s) = none := by
      simp [useSessionId, hpre]
    have : (stream_kb_response region beh (some s)).trace
        = (attemptLoop beh maxRetries 0 none).trace := by
      rw [show (stream_kb_response region beh (some s)).trace
        = (attemptLoop beh maxRetries 0 (useSessionId (some s))).trace from rfl, huse]
    rw [this] at htok
    exact attemptLoop_calls_none beh maxRetries 0 tok htok
  · intro hs hpre
    have huse : useSessionId (some s) = some s := by
      simp [useSessionId, hs, hpre]
    have htr : (stream_kb_response region beh (some s)).trace
        = (attemptLoop beh 3 0 (some s)).trace := by
      rw [show (stream_kb_response region beh (some s)).trace
        = (attemptLoop beh maxRetries 0 (useSessionId (some s))).trace from rfl, huse]
      rfl
    obtain ⟨tr, hcons⟩ := attemptLoop_trace_cons beh 2 0 (some s)
    have hcons3 : (attemptLoop beh 3 0 (some s)).trace = Action.call (some s) :: tr := hcons
    rw [htr, hcons3, callsOf_call]
    rfl

/-- C10 witness: a `session-` prefixed id is never forwarded, a plain id
is forwarded on the first call. -/
theorem session_prefix_token_handling_witness :
    (∀ tok ∈ callsOf (stream_kb_response "us-east-1" behFatal (some "session-123")).trace,
      tok = none) ∧
    (callsOf (stream_kb_response "us-east-1" behFatal (some "abc")).trace).head?
      = some (some "abc") :=
  ⟨(session_prefix_token_handling "us-east-1" behFatal "session-123").1
      (by decide) (by decide),
    (session_prefix_token_handling "us-east-1" behFatal "abc").2 (by decide) (by decide)⟩

/-- C9 (amended): a chat request without a query gets the error body
without any backend call and without retry, but with HTTP status 200 —
the FastAPI default for a returned dict — not 400; feedback requests with
a missing conversation id or a feedback value outside the accepted set
get status 400 with no store access and no retry. -/
theorem input_validation (region : String) (beh : Nat → CallResult)
    (p : ChatPayload) (convLookup : String → Option String) (cid fb : Option String) :
    ((p.query = none ∨ p.query = some "") →
      chat region beh p = ChatResponse.json 200 "Missing required parameter: query" ∧
      chatBackendCalls (chat region beh p) = 0 ∧
      chatStatus (chat region beh p) = 200) ∧
    ((cid = none ∨ cid = some "" ∨
        (normalizeFeedback fb ≠ some "pos" ∧ normalizeFeedback fb ≠ some "neg")) →
      (submit_feedback convLookup cid fb).status = 400 ∧
      (submit_feedback convLookup cid fb).storeCalls = 0) := by
  constructor
  · intro hq
    rcases hq with hq | hq <;> simp [chat, hq, chatBackendCalls, chatStatus]
  · intro hc
    rcases hc with hc | hc | hc
    · simp [submit_feedback, hc]
    · simp [submit_feedback, hc]
    · cases cid with
      | none => simp [submit_feedback]
      | some c =>
        by_cases hc0 : c = ""
        · simp [submit_feedback, hc0]
        · simp only [submit_feedback, hc0, if_neg]
          have : (normalizeFeedback fb = some "pos" || normalizeFeedback fb = some "neg")
              = false := by
            simp [hc.1, hc.2]
          simp [hc0, this]

/-- C9 witness: concrete invalid requests. -/
theorem input_validation_witness :
    (chat "us-east-1" behFatal ⟨none, none⟩
        = ChatResponse.json 200 "Missing required parameter: query" ∧
      chatBackendCalls (chat "us-east-1" behFatal ⟨none, none⟩) = 0 ∧
      chatStatus (chat "us-east-1" behFatal ⟨none, none⟩) = 200) ∧
    ((submit_feedback (fun _ => none) (some "c1") (some "great")).status = 400 ∧
      (submit_feedback (fun _ => none) (some "c1") (some "great")).storeCalls = 0) :=
  ⟨(input_validation "us-east-1" behFatal ⟨none, none⟩ (fun _ => none) none none).1
      (Or.inl rfl),
    (input_validation "us-east-1" behFatal ⟨none, none⟩ (fun _ => none) (some "c1")
        (some "great")).2 (Or.inr (Or.inr (by decide)))⟩

/-- C9 counterexample: the chat endpoint answers a missing query with
HTTP status 200 (the FastAPI default for the returned error dict), not
with status 400 as claimed. -/
theorem input_validation_counterexample :
    chatStatus (chat "us-east-1" behFatal ⟨none, none⟩) = 200 ∧
    chatStatus (chat "us-east-1" behFatal ⟨none, none⟩) ≠ 400 ∧
    chatBackendCalls (chat "us-east-1" behFatal ⟨none, none⟩) = 0 := by
  decide

/-! ### Aggregation-engine lemmas -/

theorem datesIn_length (s e : Date) : (datesIn s e).length = dateOrd e + 1 - dateOrd s := by
  simp [datesIn]

theorem parallel_ok (store : Nat → DayStats) (failing : Nat → Bool) (s e : Date)
    (h : dateOrd s ≤ dateOrd e) :
    parallel_query_stats store failing s e
      = Except.ok ((datesIn s e).foldl (pqStep store failing) ⟨[], zeroDayStats⟩) := by
  unfold parallel_query_stats
  rw [if_neg]
  rw [datesIn_length]
  omega

theorem pq_fold_totals (store : Nat → DayStats) (failing : Nat → Bool) :
    ∀ (dates : List Nat) (dl : List (Nat × DayStats)) (t0 : DayStats),
      (dates.foldl (pqStep store failing) ⟨dl, t0⟩).totals
        = ((dates.filter (fun d => !failing d)).map store).foldl addStats t0 := by
  intro dates
  induction dates with
  | nil => intro dl t0; rfl
  | cons d rest ih =>
    intro dl t0
    by_cases hf : failing d = true
    · simp only [List.foldl_cons, pqStep, hf, if_true, List.filter_cons, Bool.not_true]
      rw [ih]
      simp [hf]
    · simp only [Bool.not_eq_true] at hf
      simp only [List.foldl_cons, pqStep, hf, Bool.false_eq_true, if_false,
        List.filter_cons, Bool.not_false]
      rw [ih]
      simp [hf]

theorem pq_fold_daily (store : Nat → DayStats) (failing : Nat → Bool) :
    ∀ (dates : List Nat) (dl : List (Nat × DayStats)) (t0 : DayStats),
      (dates.foldl (pqStep store failing) ⟨dl, t0⟩).daily
        = dl ++ dates.map (fun d => (d, if failing d then zeroDayStats else store d)) := by
  intro dates
  induction dates with
  | nil => intro dl t0; simp
  | cons d rest ih =>
    intro dl t0
    by_cases hf : failing d = true
    · simp only [List.foldl_cons, pqStep, hf, if_true, List.map_cons]
      rw [ih]
      simp
    · simp only [Bool.not_eq_true] at hf
      simp only [List.foldl_cons, pqStep, hf, Bool.false_eq_true, if_false, List.map_cons]
      rw [ih]
      simp

theorem alookup_map_self {ν : Type} (f : Nat → ν) :
    ∀ (dates : List Nat) (d : Nat), d ∈ dates →
      alookup d (dates.map (fun x => (x, f x))) = some (f d) := by
  intro dates
  induction dates with
  | nil => intro d h; cases h
  | cons a rest ih =>
    intro d h
    by_cases hd : d = a
    · subst hd
      simp [alookup]
    · rcases List.mem_cons.mp h with h1 | h1
      · exact absurd h1 hd
      · simp only [List.map_cons, alookup, if_neg hd]
        exact ih d h1

/-- C7: a raising per-day query is degraded to a zero-filled record for
that day, the range computation still completes, and the totals are the
merged sum over exactly the successful days. -/
theorem parallel_partial_failure (store : Nat → DayStats) (failing : Nat → Bool)
    (s e : Date) (h : dateOrd s ≤ dateOrd e) :
    ∃ pq, parallel_query_stats store failing s e = Except.ok pq ∧
      pq.totals = (((datesIn s e).filter (fun d => !failing d)).map store).foldl
        addStats zeroDayStats ∧
      ∀ d ∈ datesIn s e, failing d = true → alookup d pq.daily = some zeroDayStats := by
  refine ⟨_, parallel_ok store failing s e h, ?_, ?_⟩
  · exact pq_fold_totals store failing (datesIn s e) [] zeroDayStats
  · intro d hd hf
    rw [pq_fold_daily store failing (datesIn s e) [] zeroDayStats]
    simp only [List.nil_append]
    rw [alookup_map_self (fun d => if failing d then zeroDayStats else store d)
      (datesIn s e) d hd]
    simp [hf]

/-- C7 witness: a two-day range where the first day's query raises. -/
theorem parallel_partial_failure_witness :
    dateOrd dJan1 ≤ dateOrd ⟨2024, 1, 2⟩ ∧
    ∃ pq, parallel_query_stats fixtureStore (fun d => d = dateOrd dJan1) dJan1 ⟨2024, 1, 2⟩
        = Except.ok pq ∧
      pq.totals = (((datesIn dJan1 ⟨2024, 1, 2⟩).filter
          (fun d => !(decide (d = dateOrd dJan1)))).map fixtureStore).foldl
        addStats zeroDayStats ∧
      ∀ d ∈ datesIn dJan1 ⟨2024, 1, 2⟩, (d = dateOrd dJan1 : Bool) = true →
        alookup d pq.daily = some zeroDayStats :=
  ⟨by decide,
    parallel_partial_failure fixtureStore (fun d => d = dateOrd dJan1) dJan1 ⟨2024, 1, 2⟩
      (by decide)⟩

/-- C5: the claim is right and the code is wrong — for a range with
`startDate` after `endDate` the date list is empty, so the source
constructs `ThreadPoolExecutor(max_workers=min(10, 0))`, which raises
`ValueError("max_workers must be greater than 0")` instead of returning
zero totals and an empty chart; the exception is unhandled in `get_stats`
and the handler, so the request fails. -/
theorem stats_empty_range_raises :
    get_stats fixtureStore (fun _ => false) ⟨2024, 1, 2⟩ ⟨2024, 1, 1⟩ ⟨2024, 1, 2⟩ 0
        emptyCache
      = Except.error "max_workers must be greater than 0" := by
  decide

theorem alookup_cons_self {κ ν : Type} [DecidableEq κ] (k : κ) (v : ν) (l : List (κ × ν)) :
    alookup k ((k, v) :: l) = some v := by
  simp [alookup]

/-- C4 (amended): when the pair is not cached at the first call (a cache
miss) and the range is nonempty, a second stats call less than 60 seconds
later — with any store, failure pattern and current day — returns the
identical response, leaves the cache unchanged, and issues zero per-day
queries, while the first call issued one query per day of the range. -/
theorem stats_cache_idempotent (store store2 : Nat → DayStats)
    (failing failing2 : Nat → Bool)
    (s e today today2 : Date) (t0 t1 : Nat) (c : Cache)
    (hmiss : (get_cached_result c t0 (s, e)).1 = none)
    (hord : dateOrd s ≤ dateOrd e)
    (hmono : t0 ≤ t1) (hlt : t1 < t0 + 60) :
    ∃ resp c1,
      get_stats store failing s e today t0 c
        = Except.ok (resp, c1, (datesIn s e).length) ∧
      get_stats store2 failing2 s e today2 t1 c1
        = Except.ok (resp, c1, 0) := by
  rcases hgc : get_cached_result c t0 (s, e) with ⟨o, ca⟩
  have ho : o = none := by rw [hgc] at hmiss; exact hmiss
  subst ho
  refine ⟨buildResponse ((datesIn s e).foldl (pqStep store failing) ⟨[], zeroDayStats⟩)
      s e today ((dateOrd e : Int) - (dateOrd s : Int) + 1),
    set_cached_result ca (s, e)
      (buildResponse ((datesIn s e).foldl (pqStep store failing) ⟨[], zeroDayStats⟩)
        s e today ((dateOrd e : Int) - (dateOrd s : Int) + 1)) t0, ?_, ?_⟩
  · unfold get_stats
    simp only [hgc, parallel_ok store failing s e hord]
  · have hstats : alookup (s, e)
        (set_cached_result ca (s, e)
          (buildResponse ((datesIn s e).foldl (pqStep store failing) ⟨[], zeroDayStats⟩)
            s e today ((dateOrd e : Int) - (dateOrd s : Int) + 1)) t0).stats
        = some (buildResponse
            ((datesIn s e).foldl (pqStep store failing) ⟨[], zeroDayStats⟩)
            s e today ((dateOrd e : Int) - (dateOrd s : Int) + 1)) :=
      alookup_cons_self _ _ _
    have hstamps : alookup (s, e)
        (set_cached_result ca (s, e)
          (buildResponse ((datesIn s e).foldl (pqStep store failing) ⟨[], zeroDayStats⟩)
            s e today ((dateOrd e : Int) - (dateOrd s : Int) + 1)) t0).stamps
        = some t0 :=
      alookup_cons_self _ _ _
    unfold get_stats
    unfold get_cached_result
    simp only [hstats, hstamps, Option.getD_some]
    rw [if_pos (by omega : t1 - t0 < 60)]

/-- C4 witness: two calls for the same one-day pair from the empty cache,
0 and 59 seconds in. -/
theorem stats_cache_idempotent_witness :
    (get_cached_result emptyCache 0 (dJan1, dJan1)).1 = none ∧
    dateOrd dJan1 ≤ dateOrd dJan1 ∧
    ∃ resp c1,
      get_stats fixtureStore (fun _ => false) dJan1 dJan1 dJan1 0 emptyCache
        = Except.ok (resp, c1, (datesIn dJan1 dJan1).length) ∧
      get_stats fixtureStore (fun _ => false) dJan1 dJan1 dJan1 59 c1
        = Except.ok (resp, c1, 0) :=
  ⟨rfl, by decide,
    stats_cache_idempotent fixtureStore fixtureStore (fun _ => false) (fun _ => false)
      dJan1 dJan1 dJan1 dJan1 0 59 emptyCache rfl (by decide) (by decide) (by decide)⟩

/-- C4 counterexample: the cache holds an entry for the pair stamped at
time 0; a first call at t = 59 is a hit (0 queries, cache unchanged), and
a second call one second later — far less than 60 seconds after the first
— finds the entry expired and issues a per-day query, so the claim as
stated (every second call within 60 s of the first issues no queries)
fails. -/
theorem stats_cache_idempotent_counterexample :
    queriesOf (get_stats fixtureStore (fun _ => false) dJan1 dJan1 dJan1 59 warmCache)
      = some 0 ∧
    cacheOf (get_stats fixtureStore (fun _ => false) dJan1 dJan1 dJan1 59 warmCache)
      = some warmCache ∧
    queriesOf (get_stats fixtureStore (fun _ => false) dJan1 dJan1 dJan1 60 warmCache)
      = some 1 := by
  decide

/-! ### Calendar and chart-shape lemmas -/

theorem daysInMonth_ge (y m : Nat) : 28 ≤ daysInMonth y m := by
  unfold daysInMonth
  split_ifs <;> omega

theorem daysBeforeMonth_succ (y m : Nat) (h : 1 ≤ m) :
    daysBeforeMonth y (m + 1) = daysBeforeMonth y m + daysInMonth y m := by
  obtain ⟨k, rfl⟩ : ∃ k, m = k + 1 := ⟨m - 1, by omega⟩
  show (if k + 1 = 0 then 0 else daysBeforeMonth y (k + 1) + daysInMonth y (k + 1)) = _
  simp

theorem daysBeforeMonth_13 (y : Nat) :
    daysBeforeMonth y 13 = if isLeap y then 366 else 365 := by
  have s := daysBeforeMonth_succ y
  rw [show (13 : Nat) = 12 + 1 from rfl, s 12 (by omega),
    show (12 : Nat) = 11 + 1 from rfl, s 11 (by omega),
    show (11 : Nat) = 10 + 1 from rfl, s 10 (by omega),
    show (10 : Nat) = 9 + 1 from rfl, s 9 (by omega),
    show (9 : Nat) = 8 + 1 from rfl, s 8 (by omega),
    show (8 : Nat) = 7 + 1 from rfl, s 7 (by omega),
    show (7 : Nat) = 6 + 1 from rfl, s 6 (by omega),
    show (6 : Nat) = 5 + 1 from rfl, s 5 (by omega),
    show (5 : Nat) = 4 + 1 from rfl, s 4 (by omega),
    show (4 : Nat) = 3 + 1 from rfl, s 3 (by omega),
    show (3 : Nat) = 2 + 1 from rfl, s 2 (by omega),
    show (2 : Nat) = 1 + 1 from rfl, s 1 (by omega)]
  have h1 : daysBeforeMonth y 1 = 0 := rfl
  rw [h1]
  cases h : isLeap y <;> simp [daysInMonth, h]

theorem daysBeforeYear_succ (y : Nat) (h : 1 ≤ y) :
    daysBeforeYear (y + 1) = daysBeforeYear y + (if isLeap y then 366 else 365) := by
  obtain ⟨n, rfl⟩ : ∃ n, y = n + 1 := ⟨y - 1, by omega⟩
  unfold daysBeforeYear isLeap
  simp only [Nat.add_sub_cancel]
  have h4 : (n + 1) / 4 = n / 4 + if 4 ∣ (n + 1) then 1 else 0 := Nat.succ_div n 4
  have h100 : (n + 1) / 100 = n / 100 + if 100 ∣ (n + 1) then 1 else 0 := Nat.succ_div n 100
  have h400 : (n + 1) / 400 = n / 400 + if 400 ∣ (n + 1) then 1 else 0 := Nat.succ_div n 400
  simp only [Nat.dvd_iff_mod_eq_zero] at h4 h100 h400
  simp only [Bool.and_eq_true, Bool.or_eq_true, beq_iff_eq, bne_iff_ne, ne_eq]
  have hle : n / 100 ≤ 365 * n + n / 4 + n / 400 := by omega
  split_ifs at h4 h100 h400 ⊢ <;> rw [h4, h100, h400] <;> omega

theorem idxYear_mul_add (y m : Nat) (h1 : 1 ≤ m) (h2 : m ≤ 12) :
    idxYear (12 * y + m) = y := by
  unfold idxYear
  omega

theorem idxMonth_mul_add (y m : Nat) (h1 : 1 ≤ m) (h2 : m ≤ 12) :
    idxMonth (12 * y + m) = m := by
  unfold idxMonth
  omega

theorem idxMonth_ge (i : Nat) : 1 ≤ idxMonth i := by
  unfold idxMonth; omega

theorem idxMonth_le (i : Nat) : idxMonth i ≤ 12 := by
  unfold idxMonth; omega

theorem idxYear_ge (i : Nat) (h : 13 ≤ i) : 1 ≤ idxYear i := by
  unfold idxYear; omega

theorem monthFirstOrd_next (y m : Nat) (hy : 1 ≤ y) (h1 : 1 ≤ m) (h2 : m ≤ 12) :
    monthFirstOrd (if m = 12 then y + 1 else y) (if m = 12 then 1 else m + 1)
      = monthFirstOrd y m + daysInMonth y m := by
  by_cases h12 : m = 12
  · subst h12
    simp only [if_pos rfl]
    show daysBeforeYear (y + 1) + daysBeforeMonth (y + 1) 1 + 1
      = daysBeforeYear y + daysBeforeMonth y 12 + 1 + daysInMonth y 12
    have e1 : daysBeforeMonth (y + 1) 1 = 0 := rfl
    have e2 : daysBeforeMonth y 12 + daysInMonth y 12 = daysBeforeMonth y 13 :=
      (daysBeforeMonth_succ y 12 (by omega)).symm
    have e3 := daysBeforeMonth_13 y
    have e4 := daysBeforeYear_succ y hy
    rw [e1, e4]
    omega
  · rw [if_neg h12, if_neg h12]
    show daysBeforeYear y + daysBeforeMonth y (m + 1) + 1
      = daysBeforeYear y + daysBeforeMonth y m + 1 + daysInMonth y m
    rw [daysBeforeMonth_succ y m h1]
    omega

theorem ordFirst_step (i : Nat) (h : 13 ≤ i) :
    ordFirst (i + 1) = ordFirst i + daysInMonth (idxYear i) (idxMonth i) := by
  have h1 := idxMonth_ge i
  have h2 := idxMonth_le i
  have hy := idxYear_ge i h
  by_cases h12 : idxMonth i = 12
  · have hy1 : idxYear (i + 1) = idxYear i + 1 := by unfold idxYear idxMonth at *; omega
    have hm1 : idxMonth (i + 1) = 1 := by unfold idxYear idxMonth at *; omega
    have := monthFirstOrd_next (idxYear i) (idxMonth i) hy h1 h2
    rw [if_pos h12, if_pos h12] at this
    unfold ordFirst
    rw [hy1, hm1, h12]
    rw [h12] at this
    exact this
  · have hy1 : idxYear (i + 1) = idxYear i := by unfold idxYear idxMonth at *; omega
    have hm1 : idxMonth (i + 1) = idxMonth i + 1 := by unfold idxYear idxMonth at *; omega
    have := monthFirstOrd_next (idxYear i) (idxMonth i) hy h1 h2
    rw [if_neg h12, if_neg h12] at this
    unfold ordFirst
    rw [hy1, hm1]
    exact this

theorem ordFirst_mono_add (i : Nat) (h : 13 ≤ i) :
    ∀ k, ordFirst i + 28 * k ≤ ordFirst (i + k) := by
  intro k
  induction k with
  | zero => simp
  | succ k ih =>
    have hs := ordFirst_step (i + k) (by omega)
    have hge := daysInMonth_ge (idxYear (i + k)) (idxMonth (i + k))
    have : i + (k + 1) = i + k + 1 := by omega
    rw [this, hs]
    omega

theorem dateOrd_eq_ordFirst (d : Date) (hd : ValidDate d) :
    dateOrd d = ordFirst (12 * d.year + d.month) + (d.day - 1) := by
  obtain ⟨hy, hm1, hm2, hd1, hd2⟩ := hd
  unfold ordFirst
  rw [idxYear_mul_add d.year d.month hm1 hm2, idxMonth_mul_add d.year d.month hm1 hm2]
  show dateOrd d = daysBeforeYear d.year + daysBeforeMonth d.year d.month + 1 + (d.day - 1)
  unfold dateOrd
  omega

theorem dateOrd_lt_next (d : Date) (hd : ValidDate d) :
    dateOrd d < ordFirst (12 * d.year + d.month + 1) := by
  obtain ⟨hy, hm1, hm2, hd1, hd2⟩ := hd
  have hidx : 13 ≤ 12 * d.year + d.month := by omega
  have hs := ordFirst_step (12 * d.year + d.month) hidx
  rw [hs, idxYear_mul_add d.year d.month hm1 hm2, idxMonth_mul_add d.year d.month hm1 hm2]
  have he := dateOrd_eq_ordFirst d ⟨hy, hm1, hm2, hd1, hd2⟩
  omega

theorem monthFirst_le_iff (y m : Nat) (hy : 1 ≤ y) (h1 : 1 ≤ m) (h2 : m ≤ 12)
    (e : Date) (he : ValidDate e) :
    monthFirstOrd y m ≤ dateOrd e ↔ 12 * y + m ≤ 12 * e.year + e.month := by
  obtain ⟨hey, hem1, hem2, hed1, hed2⟩ := he
  have hidx : 13 ≤ 12 * y + m := by omega
  have hidxE : 13 ≤ 12 * e.year + e.month := by omega
  have hself : monthFirstOrd y m = ordFirst (12 * y + m) := by
    unfold ordFirst
    rw [idxYear_mul_add y m h1 h2, idxMonth_mul_add y m h1 h2]
  constructor
  · intro h
    by_contra hn
    push_neg at hn
    have hlt := dateOrd_lt_next e ⟨hey, hem1, hem2, hed1, hed2⟩
    have hmono := ordFirst_mono_add (12 * e.year + e.month + 1) (by omega)
      (12 * y + m - (12 * e.year + e.month + 1))
    have heq : 12 * e.year + e.month + 1 + (12 * y + m - (12 * e.year + e.month + 1))
        = 12 * y + m := by omega
    rw [heq] at hmono
    rw [hself] at h
    omega
  · intro h
    have hmono := ordFirst_mono_add (12 * y + m) hidx (12 * e.year + e.month - (12 * y + m))
    have heq : 12 * y + m + (12 * e.year + e.month - (12 * y + m))
        = 12 * e.year + e.month := by omega
    rw [heq] at hmono
    have he2 := dateOrd_eq_ordFirst e ⟨hey, hem1, hem2, hed1, hed2⟩
    rw [hself]
    omega

theorem dailyChart_closed (daily : List (Nat × DayStats)) :
    ∀ (n cur : Nat), dailyChart daily cur n
      = (List.range n).map (fun i => dailyPointSpec daily cur i) := by
  intro n
  induction n with
  | zero => intro cur; rfl
  | succ n ih =>
    intro cur
    rw [List.range_succ_eq_map]
    simp only [dailyChart, List.map_cons, List.map_map]
    congr 1
    rw [ih (cur + 1)]
    apply List.map_congr_left
    intro i _
    have h1 : cur + 1 + i = cur + (i + 1) := by omega
    show dailyPointSpec daily (cur + 1) i = dailyPointSpec daily cur (i + 1)
    unfold dailyPointSpec
    rw [h1]

theorem weeklyGo_closed (daily : List (Nat × DayStats)) (endOrd : Nat) :
    ∀ (n fuel cur : Nat), n = (endOrd + 1 - cur + 6) / 7 → endOrd + 1 - cur ≤ fuel →
      weeklyGo daily endOrd fuel cur
        = (List.range n).map (fun i => weeklyPointSpec daily cur endOrd i) := by
  intro n
  induction n with
  | zero =>
    intro fuel cur hn hfuel
    have hrem : endOrd + 1 - cur = 0 := by omega
    cases fuel with
    | zero => rfl
    | succ f =>
      show (if cur ≤ endOrd then _ else []) = _
      rw [if_neg (by omega)]
      rfl
  | succ n ih =>
    intro fuel cur hn hfuel
    have hle : cur ≤ endOrd := by omega
    obtain ⟨f, rfl⟩ : ∃ f, fuel = f + 1 := ⟨fuel - 1, by omega⟩
    show (if cur ≤ endOrd then
        ChartPoint.mk cur (min (cur + 6) endOrd) (sumCounts daily cur (min (cur + 6) endOrd)) ::
          weeklyGo daily endOrd f (min (cur + 6) endOrd + 1)
      else []) = _
    rw [if_pos hle, List.range_succ_eq_map]
    simp only [List.map_cons, List.map_map]
    congr 1
    by_cases hcase : cur + 6 ≤ endOrd
    · have hmin : min (cur + 6) endOrd = cur + 6 := by omega
      rw [hmin, ih f (cur + 7) (by omega) (by omega)]
      apply List.map_congr_left
      intro i _
      have h7 : cur + 7 + 7 * i = cur + 7 * (i + 1) := by omega
      show weeklyPointSpec daily (cur + 7) endOrd i = weeklyPointSpec daily cur endOrd (i + 1)
      unfold weeklyPointSpec
      rw [h7]
    · have hmin : min (cur + 6) endOrd = endOrd := by omega
      have hn0 : n = 0 := by omega
      subst hn0
      rw [hmin]
      show weeklyGo daily endOrd f (endOrd + 1) = _
      cases f with
      | zero => rfl
      | succ f2 =>
        show (if endOrd + 1 ≤ endOrd then _ else []) = _
        rw [if_neg (by omega)]
        rfl

theorem monthlyGo_closed (daily : List (Nat × DayStats)) (sOrd : Nat)
    (e : Date) (he : ValidDate e) :
    ∀ (n fuel y m : Nat), 1 ≤ y → 1 ≤ m → m ≤ 12 →
      n = 12 * e.year + e.month + 1 - (12 * y + m) → n ≤ fuel →
      monthlyGo daily sOrd (dateOrd e) fuel y m
        = (List.range n).map
            (fun i => monthlyPointSpec daily sOrd (dateOrd e) (12 * y + m + i)) := by
  intro n
  induction n with
  | zero =>
    intro fuel y m hy h1 h2 hn hfuel
    have hgt : ¬ monthFirstOrd y m ≤ dateOrd e := by
      rw [monthFirst_le_iff y m hy h1 h2 e he]
      omega
    cases fuel with
    | zero => rfl
    | succ f =>
      show (if monthFirstOrd y m ≤ dateOrd e then _ else []) = _
      rw [if_neg hgt]
      rfl
  | succ n ih =>
    intro fuel y m hy h1 h2 hn hfuel
    have hle : monthFirstOrd y m ≤ dateOrd e := by
      rw [monthFirst_le_iff y m hy h1 h2 e he]
      omega
    obtain ⟨f, rfl⟩ : ∃ f, fuel = f + 1 := ⟨fuel - 1, by omega⟩
    show (if monthFirstOrd y m ≤ dateOrd e then
        ChartPoint.mk (max (monthFirstOrd y m) sOrd)
          (min (monthFirstOrd y m + daysInMonth y m - 1) (dateOrd e))
          (sumCounts daily (max (monthFirstOrd y m) sOrd)
            (min (monthFirstOrd y m + daysInMonth y m - 1) (dateOrd e))) ::
          monthlyGo daily sOrd (dateOrd e) f (if m = 12 then y + 1 else y)
            (if m = 12 then 1 else m + 1)
      else []) = _
    rw [if_pos hle, List.range_succ_eq_map]
    simp only [List.map_cons, List.map_map]
    congr 1
    case e_head =>
      simp only [Nat.add_zero]
      unfold monthlyPointSpec
      rw [idxYear_mul_add y m h1 h2, idxMonth_mul_add y m h1 h2]
    case e_tail =>
      have hy2 : 1 ≤ (if m = 12 then y + 1 else y) := by split_ifs <;> omega
      have hm2a : 1 ≤ (if m = 12 then 1 else m + 1) := by split_ifs <;> omega
      have hm2b : (if m = 12 then 1 else m + 1) ≤ 12 := by split_ifs <;> omega
      have hidx : 12 * (if m = 12 then y + 1 else y) + (if m = 12 then 1 else m + 1)
          = 12 * y + m + 1 := by split_ifs <;> omega
      rw [ih f _ _ hy2 hm2a hm2b (by rw [hidx]; omega) (by omega)]
      apply List.map_congr_left
      intro i _
      have hsh : 12 * (if m = 12 then y + 1 else y) + (if m = 12 then 1 else m + 1) + i
          = 12 * y + m + (i + 1) := by rw [hidx]; omega
      show monthlyPointSpec daily sOrd (dateOrd e)
          (12 * (if m = 12 then y + 1 else y) + (if m = 12 then 1 else m + 1) + i)
        = monthlyPointSpec daily sOrd (dateOrd e) (12 * y + m + (i + 1))
      rw [hsh]

/-- C6: for a valid nonempty range the chart granularity depends only on
the inclusive day span: at most 31 days gives one point per day (so a
31-day range gives exactly 31 daily points), 32 to 90 days gives one
point per 7-day week with the final week truncated to the range end, and
more than 90 days gives one point per calendar month with the first and
last buckets clipped to the range bounds. -/
theorem chart_bucketing (store : Nat → DayStats) (failing : Nat → Bool)
    (s e today : Date) (t : Nat)
    (hs : ValidDate s) (he : ValidDate e) (hord : dateOrd s ≤ dateOrd e) :
    ∃ resp c1 pq,
      parallel_query_stats store failing s e = Except.ok pq ∧
      get_stats store failing s e today t emptyCache
        = Except.ok (resp, c1, (datesIn s e).length) ∧
      (dateOrd e + 1 - dateOrd s ≤ 31 →
        resp.conversationsByDay
          = (List.range (dateOrd e + 1 - dateOrd s)).map
              (dailyPointSpec pq.daily (dateOrd s)) ∧
        resp.conversationsByDay.length = dateOrd e + 1 - dateOrd s) ∧
      (32 ≤ dateOrd e + 1 - dateOrd s → dateOrd e + 1 - dateOrd s ≤ 90 →
        resp.conversationsByDay
          = (List.range ((dateOrd e + 1 - dateOrd s + 6) / 7)).map
              (weeklyPointSpec pq.daily (dateOrd s) (dateOrd e)) ∧
        resp.conversationsByDay.length = (dateOrd e + 1 - dateOrd s + 6) / 7) ∧
      (90 < dateOrd e + 1 - dateOrd s →
        resp.conversationsByDay
          = (List.range (12 * e.year + e.month + 1 - (12 * s.year + s.month))).map
              (fun i => monthlyPointSpec pq.daily (dateOrd s) (dateOrd e)
                (12 * s.year + s.month + i)) ∧
        resp.conversationsByDay.length
          = 12 * e.year + e.month + 1 - (12 * s.year + s.month)) := by
  have hcache : get_cached_result emptyCache t (s, e) = (none, emptyCache) := rfl
  refine ⟨buildResponse ((datesIn s e).foldl (pqStep store failing) ⟨[], zeroDayStats⟩)
      s e today ((dateOrd e : Int) - (dateOrd s : Int) + 1),
    set_cached_result emptyCache (s, e)
      (buildResponse ((datesIn s e).foldl (pqStep store failing) ⟨[], zeroDayStats⟩)
        s e today ((dateOrd e : Int) - (dateOrd s : Int) + 1)) t,
    (datesIn s e).foldl (pqStep store failing) ⟨[], zeroDayStats⟩,
    parallel_ok store failing s e hord, ?_, ?_, ?_, ?_⟩
  · unfold get_stats
    simp only [hcache, parallel_ok store failing s e hord]
  · intro hle
    have hchart : (buildResponse ((datesIn s e).foldl (pqStep store failing)
          ⟨[], zeroDayStats⟩) s e today
          ((dateOrd e : Int) - (dateOrd s : Int) + 1)).conversationsByDay
        = dailyChart ((datesIn s e).foldl (pqStep store failing) ⟨[], zeroDayStats⟩).daily
            (dateOrd s) (dateOrd e + 1 - dateOrd s) := by
      show buildChart _ s e _ = _
      unfold buildChart
      rw [if_pos (by omega : ((dateOrd e : Int) - (dateOrd s : Int) + 1) ≤ 31)]
    rw [hchart, dailyChart_closed]
    simp [List.length_map, List.length_range, dailyPointSpec]
  · intro h32 h90
    have hchart : (buildResponse ((datesIn s e).foldl (pqStep store failing)
          ⟨[], zeroDayStats⟩) s e today
          ((dateOrd e : Int) - (dateOrd s : Int) + 1)).conversationsByDay
        = weeklyGo ((datesIn s e).foldl (pqStep store failing) ⟨[], zeroDayStats⟩).daily
            (dateOrd e) (dateOrd e + 1 - dateOrd s) (dateOrd s) := by
      show buildChart _ s e _ = _
      unfold buildChart
      rw [if_neg (by omega : ¬((dateOrd e : Int) - (dateOrd s : Int) + 1) ≤ 31),
        if_pos (by omega : ((dateOrd e : Int) - (dateOrd s : Int) + 1) ≤ 90)]
    rw [hchart, weeklyGo_closed _ _ ((dateOrd e + 1 - dateOrd s + 6) / 7)
      (dateOrd e + 1 - dateOrd s) (dateOrd s) rfl (by omega)]
    simp [List.length_map, List.length_range]
  · intro h90
    obtain ⟨hsy, hsm1, hsm2, _, _⟩ := hs
    have hchart : (buildResponse ((datesIn s e).foldl (pqStep store failing)
          ⟨[], zeroDayStats⟩) s e today
          ((dateOrd e : Int) - (dateOrd s : Int) + 1)).conversationsByDay
        = monthlyGo ((datesIn s e).foldl (pqStep store failing) ⟨[], zeroDayStats⟩).daily
            (dateOrd s) (dateOrd e)
            (12 * e.year + e.month + 1 - (12 * s.year + s.month)) s.year s.month := by
      show buildChart _ s e _ = _
      unfold buildChart
      rw [if_neg (by omega : ¬((dateOrd e : Int) - (dateOrd s : Int) + 1) ≤ 31),
        if_neg (by omega : ¬((dateOrd e : Int) - (dateOrd s : Int) + 1) ≤ 90)]
    rw [hchart, monthlyGo_closed _ _ e he
      (12 * e.year + e.month + 1 - (12 * s.year + s.month))
      (12 * e.year + e.month + 1 - (12 * s.year + s.month))
      s.year s.month hsy hsm1 hsm2 rfl (by omega)]
    simp [List.length_map, List.length_range]

/-- C6 witness: the bucketing of concrete 31-day, 32-day and 91-day
ranges. -/
theorem chart_bucketing_witness :
    (ValidDate dJan1 ∧ ValidDate (Date.mk 2024 1 31)
      ∧ dateOrd dJan1 ≤ dateOrd (Date.mk 2024 1 31)
      ∧ ∃ resp c1 pq,
        parallel_query_stats fixtureStore (fun _ => false) dJan1 (Date.mk 2024 1 31)
          = Except.ok pq ∧
        get_stats fixtureStore (fun _ => false) dJan1 (Date.mk 2024 1 31) dJan1 0 emptyCache
          = Except.ok (resp, c1, (datesIn dJan1 (Date.mk 2024 1 31)).length) ∧
        (dateOrd (Date.mk 2024 1 31) + 1 - dateOrd dJan1 ≤ 31 →
          resp.conversationsByDay
            = (List.range (dateOrd (Date.mk 2024 1 31) + 1 - dateOrd dJan1)).map
                (dailyPointSpec pq.daily (dateOrd dJan1)) ∧
          resp.conversationsByDay.length
            = dateOrd (Date.mk 2024 1 31) + 1 - dateOrd dJan1) ∧
        (32 ≤ dateOrd (Date.mk 2024 1 31) + 1 - dateOrd dJan1 →
          dateOrd (Date.mk 2024 1 31) + 1 - dateOrd dJan1 ≤ 90 →
          resp.conversationsByDay
            = (List.range ((dateOrd (Date.mk 2024 1 31) + 1 - dateOrd dJan1 + 6) / 7)).map
                (weeklyPointSpec pq.daily (dateOrd dJan1) (dateOrd (Date.mk 2024 1 31))) ∧
          resp.conversationsByDay.length
            = (dateOrd (Date.mk 2024 1 31) + 1 - dateOrd dJan1 + 6) / 7) ∧
        (90 < dateOrd (Date.mk 2024 1 31) + 1 - dateOrd dJan1 →
          resp.conversationsByDay
            = (List.range (12 * 2024 + 1 + 1 - (12 * 2024 + 1))).map
                (fun i => monthlyPointSpec pq.daily (dateOrd dJan1)
                  (dateOrd (Date.mk 2024 1 31)) (12 * 2024 + 1 + i)) ∧
          resp.conversationsByDay.length = 12 * 2024 + 1 + 1 - (12 * 2024 + 1))) ∧
    (ValidDate (Date.mk 2024 2 1) ∧ dateOrd dJan1 ≤ dateOrd (Date.mk 2024 2 1)) ∧
    (ValidDate (Date.mk 2024 4 1) ∧ dateOrd dJan1 ≤ dateOrd (Date.mk 2024 4 1)
      ∧ 90 < dateOrd (Date.mk 2024 4 1) + 1 - dateOrd dJan1) :=
  ⟨⟨by decide, by decide, by decide,
      chart_bucketing fixtureStore (fun _ => false) dJan1 (Date.mk 2024 1 31) dJan1 0
        (by decide) (by decide) (by decide)⟩,
    ⟨by decide, by decide⟩, ⟨by decide, by decide, by decide⟩⟩

end CMC
